import Mathlib

/-!
Verification of the lura configuration engine against its specification.

Each section shallowly embeds one subsystem of the Python source:

* `Lura.Shell`  — shell quoting helpers (`shlex.quote` / `shjoin` / `shlex.split`);
* `Lura.Run`    — the option-merge pipeline and enforcement of `lura/run/run.py`
  together with the `Quash` scope guard of `lura/run/context.py`;
* `Lura.Sudo`   — the askpass/FIFO protocol of `lura/sudo.py`;
* `Lura.Io`     — the stream tee pumps of `lura/io.py` and `lura/run.py`;
* `Lura.Scrub`  — the credential scrubber of `lura/utils.py`;
* `Lura.Deploy` — result classification of `lura/system/config/deployment.py`
  and `executor.py`;
* `Lura.Config` — the apply-step schedule of `lura/system/config/config.py`
  and `configuration.py`;
* `Lura.Coord`  — cancellation of `lura/system/config/coordinator.py` and the
  barrier wait of `config.py`;
* `Lura.Hosts`  — the file-transfer protocol of `lura/system/coreutils.py`.
-/

namespace Lura.Shell

/-- The single-quote character, used by the `shlex.quote` embedding. -/
def sq : String := (Char.ofNat 39).toString

/-- Characters that `shlex.quote` leaves unquoted: ASCII word characters
plus at-sign, percent, plus, equals, colon, comma, dot, slash, hyphen. -/
def safeChar (c : Char) : Bool :=
  (c.isAlpha && c.toNat < 128) || c.isDigit || c = Char.ofNat 95 ||
  c = Char.ofNat 64 || c = Char.ofNat 37 || c = Char.ofNat 43 ||
  c = Char.ofNat 61 || c = Char.ofNat 58 || c = Char.ofNat 44 ||
  c = Char.ofNat 46 || c = Char.ofNat 47 || c = Char.ofNat 45

/-- Rendering of one character inside a single-quoted region: the quote
character itself becomes the standard five-character escape. -/
def quoteChar (c : Char) : String :=
  if c = Char.ofNat 39 then sq ++ "\"" ++ sq ++ "\"" ++ sq else c.toString

/-- Embedding of Python `shlex.quote`. -/
def shQuote (s : String) : String :=
  if s = "" then sq ++ sq
  else if s.data.all safeChar then s
  else sq ++ String.join (s.data.map quoteChar) ++ sq

/-- Embedding of `lura.shell.shjoin` (itself `shlex.join`): quote every word
and join with single spaces. -/
def shjoin (xs : List String) : String :=
  String.intercalate " " (xs.map shQuote)

/-- Is `c` shell whitespace for the tokenizer? -/
def isWs (c : Char) : Bool :=
  c = ' ' || c = Char.ofNat 9 || c = Char.ofNat 10

/-- Tokenizer worker for the `shlex.split` embedding.  `inQ` is the active
quote character, `cur` the token being accumulated (`none` when no token is
open).  Backslash escapes are not modelled; the claims never exercise them. -/
def splitAux : List Char → Option Char → Option (List Char) → List String
  | [], _, none => []
  | [], _, some cur => [String.mk cur.reverse]
  | c :: cs, some q, cur =>
      if c = q then splitAux cs none (some (cur.getD []))
      else splitAux cs (some q) (some (c :: cur.getD []))
  | c :: cs, none, cur =>
      if isWs c then
        match cur with
        | none => splitAux cs none none
        | some tok => String.mk tok.reverse :: splitAux cs none none
      else if c = Char.ofNat 39 || c = '"' then
        splitAux cs (some c) (some (cur.getD []))
      else
        splitAux cs none (some (c :: cur.getD []))

/-- Embedding of Python `shlex.split` with POSIX quoting. -/
def shlexSplit (s : String) : List String :=
  splitAux s.data none none

end Lura.Shell

namespace Lura.Run

open Lura.Shell

/-- Output sinks are opaque for the merge logic; identify them by a label. -/
abbrev Sink := String

/-- Environment overlays are opaque for the merge logic. -/
abbrev EnvMap := List (String × String)

/-- The per-thread context dictionary of `run.context()`.  A `none` field
models both an absent key and a key set to Python `None`, exactly the cases
`run.context().get(name)` conflates; the list-valued `stdout`/`stderr`
entries model absent, `None` and `[]` alike as `[]` (all falsy in `lookup`).
Mirrors the variables set by the scope guards of `lura/run/context.py`. -/
structure RunCtx where
  mode : Option String := none
  env : Option EnvMap := none
  cwd : Option String := none
  shell : Option Bool := none
  stdout : List Sink := []
  stderr : List Sink := []
  enforce : Option Bool := none
  enforceCode : Option Int := none
  sudoUser : Option String := none
  sudoGroup : Option String := none
  sudoPassword : Option String := none
  sudoLogin : Option Bool := none
  sudoTimeout : Option Nat := none
deriving DecidableEq

/-- Explicit keyword arguments of one `run()` call.  `none` models an
omitted argument or an explicit `None` (conflated by
`user_args.get(name) is None` in `merge_args`).  A single non-sequence sink
passed for `stdout`/`stderr` is modelled as the one-element list produced by
the tuple-wrapping branch of `merge_args`. -/
structure UserArgs where
  mode : Option String := none
  env : Option EnvMap := none
  cwd : Option String := none
  shell : Option Bool := none
  stdout : List Sink := []
  stderr : List Sink := []
  enforce : Option Bool := none
  enforceCode : Option Int := none
  sudoUser : Option String := none
  sudoGroup : Option String := none
  sudoPassword : Option String := none
  sudoLogin : Option Bool := none
  sudoTimeout : Option Nat := none
deriving DecidableEq

/-- The fully merged argument record produced by `merge_args`. -/
structure Eff where
  mode : String
  env : Option EnvMap
  cwd : Option String
  shell : Option Bool
  stdout : List Sink
  stderr : List Sink
  enforce : Bool
  enforceCode : Int
  sudoUser : Option String
  sudoGroup : Option String
  sudoPassword : Option String
  sudoLogin : Option Bool
  sudoTimeout : Nat
deriving DecidableEq

/-- Static default of `run.defaults.stdout` (`run/run.py`). -/
def defaultsStdout : List Sink := []

/-- Static default of `run.defaults.stderr` (`run/run.py`). -/
def defaultsStderr : List Sink := []

/-- Embedding of `lookup('stdout')`: the default value is a sequence, so a
truthy context value yields defaults followed by the context list, and a
falsy one yields a copy of the defaults. -/
def lookupStdout (ctx : RunCtx) : List Sink :=
  if ctx.stdout.isEmpty then defaultsStdout else defaultsStdout ++ ctx.stdout

/-- Embedding of `lookup('stderr')`, as for `lookupStdout`. -/
def lookupStderr (ctx : RunCtx) : List Sink :=
  if ctx.stderr.isEmpty then defaultsStderr else defaultsStderr ++ ctx.stderr

/-- Embedding of `lookup` for a scalar option: the context value wins when
it is not `None`, otherwise the static default applies. -/
def lookupScalar {α : Type} (ctxVal : Option α) (defaultVal : α) : α :=
  match ctxVal with
  | some v => v
  | none => defaultVal

/-- Embedding of `lookup` for a scalar option whose static default is
`None`. -/
def lookupScalarOpt {α : Type} (ctxVal : Option α) : Option α :=
  match ctxVal with
  | some v => some v
  | none => none

/-- Embedding of a non-stdio entry of `merge_args`: an explicit argument
that is not `None` is kept, otherwise `lookup` supplies the value. -/
def mergeScalar {α : Type} (userVal ctxVal : Option α) (defaultVal : α) : α :=
  match userVal with
  | some v => v
  | none => lookupScalar ctxVal defaultVal

/-- Embedding of a non-stdio entry of `merge_args` whose static default is
`None`. -/
def mergeScalarOpt {α : Type} (userVal ctxVal : Option α) : Option α :=
  match userVal with
  | some v => some v
  | none => lookupScalarOpt ctxVal

/-- Embedding of the `stdout`/`stderr` branch of `merge_args`: a truthy
caller value is concatenated in front of the `lookup` value, a falsy one is
replaced by it. -/
def mergeStdio (userVal lookupVal : List Sink) : List Sink :=
  if userVal.isEmpty then lookupVal else userVal ++ lookupVal

/-- Embedding of `merge_args` (`lura/run/run.py`), field by field with the
static defaults table of the source. -/
def mergeArgs (user : UserArgs) (ctx : RunCtx) : Eff where
  mode := mergeScalar user.mode ctx.mode "popen"
  env := mergeScalarOpt user.env ctx.env
  cwd := mergeScalarOpt user.cwd ctx.cwd
  shell := mergeScalarOpt user.shell ctx.shell
  stdout := mergeStdio user.stdout (lookupStdout ctx)
  stderr := mergeStdio user.stderr (lookupStderr ctx)
  enforce := mergeScalar user.enforce ctx.enforce true
  enforceCode := mergeScalar user.enforceCode ctx.enforceCode 0
  sudoUser := mergeScalarOpt user.sudoUser ctx.sudoUser
  sudoGroup := mergeScalarOpt user.sudoGroup ctx.sudoGroup
  sudoPassword := mergeScalarOpt user.sudoPassword ctx.sudoPassword
  sudoLogin := mergeScalarOpt user.sudoLogin ctx.sudoLogin
  sudoTimeout := mergeScalar user.sudoTimeout ctx.sudoTimeout 3

/-- Entering a `Quash()` scope: `Context.set('enforce', False)` writes the
scalar `False` into the thread context (`lura/run/context.py`). -/
def quashEnter (ctx : RunCtx) : RunCtx :=
  { ctx with enforce := some false }

/-- The command argument of `run()`: a string or a list of words. -/
inductive Argv where
  | str (s : String)
  | list (xs : List String)
deriving DecidableEq

/-- Abstraction of the child process observed by `_run_stdio`: its exit
code and what it emitted on each stream. -/
structure Proc where
  code : Int
  out : String
  err : String
deriving DecidableEq

/-- Embedding of `run.Result`, the record built by `run.result(cmd, argv,
proc.wait(), out.getvalue(), err.getvalue())`. -/
structure Result where
  cmd : String
  argv : List String
  code : Int
  stdout : String
  stderr : String
deriving DecidableEq

/-- The exceptions `run()` can raise: `run.error(result)` on enforcement
failure, and the `ValueError` for an invalid mode. -/
inductive RunErr where
  | enforce (r : Result)
  | invalidMode (m : String)
deriving DecidableEq

/-- The valid execution modes of `run()`. -/
def modesList : List String := ["popen", "pty", "sudo"]

/-- The `(cmd, argv)` pair and result record `run()` builds: a string
command is tokenized with `shlex.split`, a list command is rejoined with
`shjoin`. -/
def mkResult (a : Argv) (proc : Proc) : Result :=
  match a with
  | .str s => ⟨s, shlexSplit s, proc.code, proc.out, proc.err⟩
  | .list xs => ⟨shjoin xs, xs, proc.code, proc.out, proc.err⟩

/-- Embedding of `run()` (`lura/run/run.py`): merge arguments, validate the
mode, run the child (abstracted to `proc`), then enforce the exit code:
raise `run.error(result)` when `enforce is True` and the code differs from
`enforce_code`, otherwise return the result. -/
def runModel (a : Argv) (user : UserArgs) (ctx : RunCtx) (proc : Proc) :
    Except RunErr Result :=
  let kw := mergeArgs user ctx
  if kw.mode ∈ modesList then
    let result := mkResult a proc
    if kw.enforce = true ∧ proc.code ≠ kw.enforceCode then
      .error (.enforce result)
    else
      .ok result
  else
    .error (.invalidMode kw.mode)

end Lura.Run

namespace Lura.Sudo

open Lura.Shell

/-- The thread-local state of `Sudo` (`lura/sudo.py`) that the argv
builders read, together with the password delivered through the FIFO. -/
structure Tls where
  argv : List String
  okPath : String
  fifoPath : String
  user : Option String
  group : Option String
  login : Bool
  timeout : Nat
  password : String
deriving DecidableEq

/-- Python `str(float(n))` for a natural timeout value. -/
def floatStr (n : Nat) : String := toString n ++ ".0"

/-- Embedding of `Sudo._command_argv`: the string handed to the shell,
`touch <ok> && exec <user-argv>` with both parts shell-joined. -/
def commandArgv (t : Tls) : String :=
  shjoin ["touch", t.okPath] ++ " " ++ "&& exec" ++ " " ++ shjoin t.argv

/-- Embedding of `Sudo._sudo_argv`: `sudo -A` plus the optional user,
group and login flags, then the shell running the command string. -/
def sudoArgv (shell : String) (t : Tls) : List String :=
  ["sudo", "-A"] ++
  (match t.user with | some u => ["-u", u] | none => []) ++
  (match t.group with | some g => ["-g", g] | none => []) ++
  (if t.login then ["-i"] else []) ++
  [shell, "-c", commandArgv t]

/-- Embedding of `Sudo._askpass_argv`: the shell-joined self-invocation
written into the askpass script. -/
def askpassArgv (pyExe : String) (t : Tls) : String :=
  shjoin [pyExe, "-m", "lura.sudo", "askpass", t.fifoPath, floatStr t.timeout]

/-- The single failure `_wait_for_sudo` and `_write_fifo` can raise. -/
inductive SudoErr where
  | timeoutExpired
deriving DecidableEq

/-- Discrete-time environment observed by the parent while waiting for
sudo.  Each loop iteration of the source sleeps `sleep_interval`, which is
one tick here.  `okAt t` is `os.path.isfile(ok_path)` at tick `t`;
`fifoOpenAt t` is whether `_open_fifo` succeeds at tick `t`; `writeAt t` is
the byte count accepted by `os.write` at tick `t` (`0` models
`BlockingIOError`); `pwLen` is the encoded password length. -/
structure SudoEnv where
  okAt : Nat → Bool
  fifoOpenAt : Nat → Bool
  writeAt : Nat → Nat
  pwLen : Nat

/-- Embedding of `Sudo._write_fifo`: keep writing password bytes, return
when the write completes or the ok sentinel appears, raise `TimeoutExpired`
when the budget passed by the caller is exceeded.  Returns the tick at
which the loop exits. -/
def writeFifo (env : SudoEnv) (budget : Int) (tstart i t : Nat) :
    Except SudoErr Nat :=
  let wrote := i + env.writeAt t
  if wrote = env.pwLen then .ok t
  else if env.okAt t then .ok t
  else if budget < (t : Int) - (tstart : Int) then .error .timeoutExpired
  else writeFifo env budget tstart wrote (t + 1)
termination_by budget.toNat + tstart + 1 - t
decreasing_by
  simp_wf
  omega

/-- Embedding of the second loop of `Sudo._wait_for_sudo`: after the FIFO
write, poll the ok sentinel until it exists or the overall timeout (ticks
measured from the start of `_wait_for_sudo`) is exceeded. -/
def awaitOk (env : SudoEnv) (timeout t : Nat) : Except SudoErr Unit :=
  if env.okAt t then .ok ()
  else if timeout < t then .error .timeoutExpired
  else awaitOk env timeout (t + 1)
termination_by timeout + 1 - t
decreasing_by
  simp_wf
  omega

/-- Embedding of `Sudo._wait_for_sudo` from tick `t`: try to open the
FIFO; once open, run `_write_fifo` with the remaining budget and then poll
the ok sentinel; while the FIFO is not open, an existing ok sentinel is
success and exceeding the timeout raises `TimeoutExpired`. -/
def waitForSudo (env : SudoEnv) (timeout t : Nat) : Except SudoErr Unit :=
  if env.fifoOpenAt t then
    match writeFifo env ((timeout : Int) - (t : Int)) t 0 t with
    | .ok tEnd => awaitOk env timeout tEnd
    | .error e => .error e
  else if env.okAt t then .ok ()
  else if timeout < t then .error .timeoutExpired
  else waitForSudo env timeout (t + 1)
termination_by timeout + 1 - t
decreasing_by
  simp_wf
  omega

end Lura.Sudo

namespace Lura.Io

/-- Python values compared by the tee loop of `lura/io.py`. -/
inductive PyVal where
  | int (n : Nat)
  | str (s : String)

/-- Python `==` across these values: `int == str` is always `False`. -/
def pyEq : PyVal → PyVal → Bool
  | .int a, .int b => a == b
  | .str a, .str b => a == b
  | _, _ => false

/-- One `readline()` step on a text source modelled as its remaining list
of lines: at EOF the read returns the empty string forever. -/
def readline (lines : List String) : String × List String :=
  match lines with
  | [] => ("", [])
  | l :: rest => (l, rest)

/-- Append `data` to every target buffer (the write fan-out loop). -/
def writeAll (data : String) (bufs : List (List String)) :
    List (List String) :=
  bufs.map (fun b => b ++ [data])

/-- Outcome of running the `lura/io.py` tee loop for a bounded number of
iterations: either the loop hit its `break`, or it is still running when
the fuel runs out. -/
inductive TeeOutcome where
  | finished (bufs : List (List String))
  | running (bufs : List (List String))
deriving DecidableEq

/-- Did the loop terminate by itself? -/
def TeeOutcome.isFinished : TeeOutcome → Bool
  | .finished _ => true
  | .running _ => false

/-- Embedding of `tee` (`lura/io.py`) with the default `cond`, observed for
`fuel` iterations: read a line, break when `len(data) == ''` (the literal
comparison of the source, an `int` against a `str`), otherwise write the
line to every target and loop. -/
def ioTee (lines : List String) (bufs : List (List String)) :
    Nat → TeeOutcome
  | 0 => .running bufs
  | fuel + 1 =>
      let r := readline lines
      if pyEq (.int r.1.length) (.str "") then .finished bufs
      else ioTee r.2 (writeAll r.1 bufs) fuel

/-- Embedding of `Tee._run_text` and `Tee._run_binary` (`lura/run.py`),
generic in the unit of transfer (a line in text mode, a fixed-size buffer
in binary mode).  `stopAfter` models the `stop()` signal being observed at
that read boundary; `none` means the signal never arrives.  The loop breaks
when the read returns the empty unit (EOF). -/
def teePump {α : Type} (stopAfter : Option Nat) (items : List α)
    (bufs : List (List α)) : List (List α) :=
  match stopAfter with
  | some 0 => bufs
  | _ =>
      match items with
      | [] => bufs
      | x :: rest =>
          teePump (stopAfter.map Nat.pred) rest (bufs.map (fun b => b ++ [x]))

end Lura.Io

namespace Lura.Scrub

mutual

/-- A Python object as seen by `scrub` (`lura/utils.py`): strings, bytes,
mutable mappings, sequences, and other scalars. -/
inductive PyObj where
  | str (s : String)
  | bytes (s : String)
  | map (m : PyMap)
  | seq (xs : PySeq)
  | other (n : Nat)

/-- A mutable mapping: an ordered association of names to objects. -/
inductive PyMap where
  | nil
  | cons (name : String) (value : PyObj) (rest : PyMap)

/-- A (non-string) sequence of objects. -/
inductive PySeq where
  | nil
  | cons (value : PyObj) (rest : PySeq)

end

/-- Python `'pass' in name.lower()`. -/
def containsPass (name : String) : Bool :=
  (name.toLower.splitOn "pass").length > 1

/-- The default scrub tag of `scrub`. -/
def scrubTag : String := "[scrubbed]"

mutual

/-- Embedding of one `scrub(obj, tag)` call body over the entries of the
mapping: pass-named `str`/`bytes` values are replaced by the tag, mapping
values are scrubbed recursively with the DEFAULT tag (the recursive call in
the source passes no tag), and sequence values are left unchanged (the
inner loop of the source tests `value`, a sequence, against
`MutableMapping`, which never holds). -/
def scrubMap (tag : String) : PyMap → PyMap
  | .nil => .nil
  | .cons name value rest =>
      let value2 :=
        match value with
        | .str _ => if containsPass name then .str tag else value
        | .bytes _ => if containsPass name then .bytes tag else value
        | .map m => .map (scrubMap scrubTag m)
        | .seq xs => .seq xs
        | .other n => .other n
      .cons name value2 (scrubMap tag rest)

end

/-- Embedding of the public `scrub(obj)` call with the default tag; the
source mutates `obj` in place and returns it, which in this pure embedding
is the returned mapping. -/
def scrub (m : PyMap) : PyMap := scrubMap scrubTag m

/-- No pass-named `str`/`bytes` entry reachable through mapping values
alone holds anything but the scrub tag. -/
def NoLeakMap : PyMap → Prop
  | .nil => True
  | .cons name value rest =>
      (match value with
       | .str s => containsPass name = true → s = scrubTag
       | .bytes s => containsPass name = true → s = scrubTag
       | .map m => NoLeakMap m
       | .seq _ => True
       | .other _ => True) ∧ NoLeakMap rest

/-- The sequence entries of a mapping, in order, with their names. -/
def seqEntries : PyMap → List (String × PySeq)
  | .nil => []
  | .cons name value rest =>
      (match value with
       | .seq xs => [(name, xs)]
       | _ => []) ++ seqEntries rest

end Lura.Scrub

namespace Lura.Deploy

/-- Embedding of `ThreadExecutor._apply`/`._delete` (`executor.py`): each
worker calls the configuration operation and returns `None` on success —
discarding the operation's return value — or `sys.exc_info()` when it
raises.  `worker h` is the operation outcome on host `h` (`.ok changes` or
`.error exc`). -/
def executorApply {α ε : Type} (worker : α → Except ε Nat) (hosts : List α) :
    List (Option ε) :=
  hosts.map (fun h =>
    match worker h with
    | .ok _ => none
    | .error e => some e)

/-- Embedding of the `ok` list of `Deployment._format_result`
(`deployment.py`): the bare systems at the positions where the worker
outcome is falsy (`None`). -/
def formatResultOk {α ε : Type} (systems : List α) (res : List (Option ε)) :
    List α :=
  (systems.zip res).filterMap (fun p =>
    match p.2 with
    | none => some p.1
    | some _ => none)

/-- Embedding of the `err` list of `Deployment._format_result`: pairs of
system and outcome at the positions where the outcome is truthy. -/
def formatResultErr {α ε : Type} (systems : List α) (res : List (Option ε)) :
    List (α × ε) :=
  (systems.zip res).filterMap (fun p =>
    match p.2 with
    | none => none
    | some e => some (p.1, e))

/-- Whether a worker outcome is a success. -/
def isOkOutcome {ε : Type} : Except ε Nat → Bool
  | .ok _ => true
  | .error _ => false

end Lura.Deploy

namespace Lura.Config

/-- The declared apply steps of a `Configuration`, as schedule labels. -/
inductive Step where
  | refreshPackageList
  | installOsPackageUrls
  | installOsPackages
  | installPythonPackages
  | createDirectories
  | copyFiles
  | copyAssets
  | renderTemplateFiles
  | renderTemplateAssets
  | createSymlinks
deriving DecidableEq

/-- The declaration payload of a `Configuration` (the lists returned by
the getters of `config.py` and `configuration.py`). -/
structure Decl where
  osPackageUrls : List (String × String) := []
  osPackages : List String := []
  pythonPackages : List String := []
  directories : List String := []
  files : List (String × String) := []
  assets : List (String × String) := []
  templateFiles : List (String × String) := []
  templateAssets : List (String × String) := []
  symlinks : List (String × String) := []
deriving DecidableEq

/-- Embedding of `get_all_os_packages`: the names of the URL packages
followed by the plain OS packages. -/
def allOsPackages (c : Decl) : List String :=
  c.osPackageUrls.map Prod.fst ++ c.osPackages

/-- Embedding of `apply_os_package_list_update` at step granularity, with
`installed p` the host's installed-package predicate: no refresh when no
packages are declared or when `packages.os.installed(os_packages)` already
holds, otherwise one refresh. -/
def applyOsPackageListUpdate (c : Decl) (installed : String → Bool) :
    List Step :=
  if allOsPackages c = [] then []
  else if (allOsPackages c).all installed then []
  else [.refreshPackageList]

/-- Embedding of `Configuration.on_apply` of `config.py` (lines 582-593)
as the schedule of declared steps it runs, in source order. -/
def onApplySteps (c : Decl) (installed : String → Bool) : List Step :=
  applyOsPackageListUpdate c installed ++
  [.installOsPackageUrls] ++
  [.installOsPackages] ++
  [.installPythonPackages] ++
  [.createDirectories] ++
  [.copyFiles] ++
  [.copyAssets] ++
  [.renderTemplateFiles] ++
  [.renderTemplateAssets] ++
  [.createSymlinks]

/-- Embedding of `Configuration.on_apply` of `configuration.py` (lines
508-518) as its schedule of declared steps: the same order, except that no
call to `apply_python_packages` appears in its body. -/
def onApplyStepsVariant (c : Decl) (installed : String → Bool) : List Step :=
  applyOsPackageListUpdate c installed ++
  [.installOsPackageUrls] ++
  [.installOsPackages] ++
  [.createDirectories] ++
  [.copyFiles] ++
  [.copyAssets] ++
  [.renderTemplateFiles] ++
  [.renderTemplateAssets] ++
  [.createSymlinks]

/-- The step order asserted by the specification: refresh the OS package
list (only when packages are declared and not all already installed), then
install OS-package URLs, OS packages, language packages, create
directories, copy files, copy assets, render template files, render
template assets, create symlinks. -/
def claimedOrder (c : Decl) (installed : String → Bool) : List Step :=
  (if allOsPackages c ≠ [] ∧ ¬ (allOsPackages c).all installed
   then [.refreshPackageList] else []) ++
  [.installOsPackageUrls, .installOsPackages, .installPythonPackages,
   .createDirectories, .copyFiles, .copyAssets, .renderTemplateFiles,
   .renderTemplateAssets, .createSymlinks]

/-- A concrete declaration with one language package, used to exhibit the
missing step of the `configuration.py` variant. -/
def demoDecl : Decl :=
  { pythonPackages := ["requests"] }

end Lura.Config

namespace Lura.Coord

/-- The coordinator state visible to waiters: the cancelled flag and the
waiters parked on each of the three barrier conditions
(`lura/system/config/coordinator.py`). -/
structure CoordState where
  cancelled : Bool
  readyWaiters : List Nat
  syncWaiters : List Nat
  doneWaiters : List Nat
deriving DecidableEq

/-- Embedding of `Coordinator.cancel`: holding all three condition locks,
set `cancelled` and `notify_all` each condition.  Returns the new state and
the waiters woken by the notifies. -/
def cancel (s : CoordState) : CoordState × List Nat :=
  ({ cancelled := true, readyWaiters := [], syncWaiters := [],
     doneWaiters := [] },
   s.readyWaiters ++ s.syncWaiters ++ s.doneWaiters)

/-- Outcome of one `BaseConfiguration._wait` call (`config.py` lines
134-141). -/
inductive WaitOutcome where
  | cancelRaised
  | timedOut
  | normal
deriving DecidableEq

/-- Embedding of `BaseConfiguration._wait` with a coordinator present:
`entry` is the coordinator state when the wait begins, `atWake` the state
when `coordinator.wait` returns, and `waitOk` whether the condition wait
was notified in time (`false` models the `TimeoutError` raise in
`Coordinator.wait`).  Cancellation is checked before the wait and again
after it, raising `Cancel` in either case. -/
def configWait (entry atWake : CoordState) (waitOk : Bool) : WaitOutcome :=
  if entry.cancelled then .cancelRaised
  else if !waitOk then .timedOut
  else if atWake.cancelled then .cancelRaised
  else .normal

end Lura.Coord

namespace Lura.Hosts

/-- A filesystem as an association of paths to file contents; a later
entry shadows an earlier one for the same path. -/
abbrev FS := List (String × String)

/-- Path lookup. -/
def fsGet (fs : FS) (p : String) : Option String :=
  match fs with
  | [] => none
  | (q, v) :: rest => if q = p then some v else fsGet rest p

/-- Write a file. -/
def fsSet (fs : FS) (p v : String) : FS := (p, v) :: fs

/-- Worker for `basename`: the characters after the last slash. -/
def basenameAux (cur : List Char) : List Char → List Char
  | [] => cur
  | c :: cs => if c = '/' then basenameAux [] cs else basenameAux (cur ++ [c]) cs

/-- Python `os.path.basename` for the slash-separated paths used here. -/
def basename (p : String) : String :=
  String.mk (basenameAux [] p.data)

/-- Failure of a transfer step: the `run()` enforcement error raised when
the underlying `cp -f` exits non-zero, or the ssh library failing to read
the requested file. -/
inductive HostErr where
  | copyFailed (src dst : String)
deriving DecidableEq

/-- Embedding of `System.cpf` (`coreutils.py`): `cp -f src dst` run under
enforcement, so a missing source raises. -/
def cpf (fs : FS) (src dst : String) : Except HostErr FS :=
  match fsGet fs src with
  | some v => .ok (fsSet fs dst v)
  | none => .error (.copyFailed src dst)

/-- Embedding of `Local.put`: a `cpf` on the local filesystem. -/
def localPut (fs : FS) (src dst : String) : Except HostErr FS :=
  cpf fs src dst

/-- Embedding of `Local.get`: also a `cpf` on the local filesystem. -/
def localGet (fs : FS) (src dst : String) : Except HostErr FS :=
  cpf fs src dst

/-- The two filesystems an `Ssh` system works across. -/
structure SshState where
  lfs : FS
  rfs : FS
deriving DecidableEq

/-- Modelled from the spec: the ssh library's `put` primitive targeted at a
remote directory ("transfer the file to the tempdir", section 4.4) writes
the local file into that directory under the LOCAL file's basename; the
library itself is outside this repository. -/
def clientPut (st : SshState) (src dstDir : String) :
    Except HostErr SshState :=
  match fsGet st.lfs src with
  | some v => .ok { st with rfs := fsSet st.rfs (dstDir ++ "/" ++ basename src) v }
  | none => .error (.copyFailed src dstDir)

/-- Modelled from the spec: the ssh library's `get` primitive pulls the
remote file `src` to the full local path `dst`. -/
def clientGet (st : SshState) (src dst : String) : Except HostErr SshState :=
  match fsGet st.rfs src with
  | some v => .ok { st with lfs := fsSet st.lfs dst v }
  | none => .error (.copyFailed src dst)

/-- Embedding of `Ssh.put` (`coreutils.py` lines 356-363): create a remote
tempdir, chown it (no content effect), transfer `src` into the tempdir
with the library `put`, then `cp -f` the path `tempdir/basename(dst)` onto
`dst`.  `tempDir` is the fresh directory returned by `mktemp -d`. -/
def sshPut (st : SshState) (tempDir src dst : String) :
    Except HostErr SshState :=
  let tmp := tempDir ++ "/" ++ basename dst
  match clientPut st src tempDir with
  | .error e => .error e
  | .ok st2 =>
      match cpf st2.rfs tmp dst with
      | .error e => .error e
      | .ok rfs2 => .ok { st2 with rfs := rfs2 }

/-- Embedding of `Ssh.get` (`coreutils.py` lines 365-372): `cp -f src
tempdir/basename(src)` on the remote side, chown (no content effect), then
pull that temp path to the local `dst` with the library `get`. -/
def sshGet (st : SshState) (tempDir src dst : String) :
    Except HostErr SshState :=
  let tmpsrc := tempDir ++ "/" ++ basename src
  match cpf st.rfs src tmpsrc with
  | .error e => .error e
  | .ok rfs2 =>
      clientGet { st with rfs := rfs2 } tmpsrc dst

/-- A concrete starting state for the transfer scenarios: one local source
file, empty remote filesystem. -/
def demoState : SshState :=
  { lfs := [("/home/u/a.txt", "DATA")], rfs := [] }

/-- The local round trip of the claim: `put(src, dst)` then `get(dst,
src2)`, returning the bytes at `src2` (or `none` when a step raised). -/
def roundTripLocal (fs : FS) (src dst src2 : String) :
    Option (Option String) :=
  match localPut fs src dst with
  | .error _ => none
  | .ok fs2 =>
      match localGet fs2 dst src2 with
      | .error _ => none
      | .ok fs3 => some (fsGet fs3 src2)

/-- The ssh round trip of the claim: `put(src, dst)` with scratch dir `d1`
then `get(dst, src2)` with scratch dir `d2`, returning the local bytes at
`src2` (or `none` when a step raised). -/
def roundTripSsh (st : SshState) (d1 d2 src dst src2 : String) :
    Option (Option String) :=
  match sshPut st d1 src dst with
  | .error _ => none
  | .ok st2 =>
      match sshGet st2 d2 dst src2 with
      | .error _ => none
      | .ok st3 => some (fsGet st3.lfs src2)

end Lura.Hosts

namespace Lura.Sudo

/-- A concrete waiting environment for the witness: the FIFO is always
open, one password byte is accepted per tick, and the ok sentinel never
appears. -/
def demoEnv : SudoEnv :=
  { okAt := fun _ => false, fifoOpenAt := fun _ => true,
    writeAt := fun _ => 1, pwLen := 2 }

end Lura.Sudo

namespace Lura.Deploy

/-- A worker whose operation succeeds on host `h1` with change total 5 and
raises on every other host. -/
def workerA : String → Except String Nat :=
  fun h => if h = "h1" then .ok 5 else .error "boom"

/-- As `workerA` but with change total 7 on host `h1`. -/
def workerB : String → Except String Nat :=
  fun h => if h = "h1" then .ok 7 else .error "boom"

end Lura.Deploy

namespace Lura.Scrub

/-- Same sequence values at every mapping level: the two mappings have the
same names in the same order, sequence values are equal, nested mappings
agree recursively, and other values are unconstrained. -/
def SeqAgree : PyMap → PyMap → Prop
  | .nil, .nil => True
  | .cons n v r, .cons n2 v2 r2 =>
      n = n2 ∧
      (match v, v2 with
       | .seq xs, .seq ys => xs = ys
       | .seq _, _ => False
       | _, .seq _ => False
       | .map a, .map b => SeqAgree a b
       | _, _ => True) ∧
      SeqAgree r r2
  | _, _ => False

end Lura.Scrub

namespace Lura.Run

/-- The non-stdio entries of `merge_args` realize the priority explicit
argument over context over static default. -/
theorem mergeScalar_eq_getD {α : Type} (u c : Option α) (d : α) :
    mergeScalar u c d = u.getD (c.getD d) := by
  cases u <;> cases c <;> rfl

/-- The non-stdio entries with a `None` static default realize the same
priority. -/
theorem mergeScalarOpt_eq_or {α : Type} (u c : Option α) :
    mergeScalarOpt u c = u.or c := by
  cases u <;> cases c <;> rfl

/-- With the static default `[]`, `lookup` of a sink list is just the
context's list. -/
theorem lookupStdout_eq (ctx : RunCtx) : lookupStdout ctx = ctx.stdout := by
  unfold lookupStdout defaultsStdout
  cases ctx.stdout <;> simp

/-- As `lookupStdout_eq` for stderr. -/
theorem lookupStderr_eq (ctx : RunCtx) : lookupStderr ctx = ctx.stderr := by
  unfold lookupStderr defaultsStderr
  cases ctx.stderr <;> simp

/-- The stdio merge is plain concatenation, caller first. -/
theorem mergeStdio_eq (u v : List Sink) : mergeStdio u v = u ++ v := by
  unfold mergeStdio
  cases u <;> simp

/-- C2: for every `run()` invocation and every option, the effective value
is the explicit call argument when given, else the scoped context value
when set, else the static default; and the effective `stdout`/`stderr`
lists are the caller's sinks followed by the context's sinks (the static
defaults being empty). -/
theorem merge_args_priority (user : UserArgs) (ctx : RunCtx) :
    (mergeArgs user ctx).mode = user.mode.getD (ctx.mode.getD "popen") ∧
    (mergeArgs user ctx).env = user.env.or ctx.env ∧
    (mergeArgs user ctx).cwd = user.cwd.or ctx.cwd ∧
    (mergeArgs user ctx).shell = user.shell.or ctx.shell ∧
    (mergeArgs user ctx).stdout = user.stdout ++ ctx.stdout ∧
    (mergeArgs user ctx).stderr = user.stderr ++ ctx.stderr ∧
    (mergeArgs user ctx).enforce = user.enforce.getD (ctx.enforce.getD true) ∧
    (mergeArgs user ctx).enforceCode =
      user.enforceCode.getD (ctx.enforceCode.getD 0) ∧
    (mergeArgs user ctx).sudoUser = user.sudoUser.or ctx.sudoUser ∧
    (mergeArgs user ctx).sudoGroup = user.sudoGroup.or ctx.sudoGroup ∧
    (mergeArgs user ctx).sudoPassword =
      user.sudoPassword.or ctx.sudoPassword ∧
    (mergeArgs user ctx).sudoLogin = user.sudoLogin.or ctx.sudoLogin ∧
    (mergeArgs user ctx).sudoTimeout =
      user.sudoTimeout.getD (ctx.sudoTimeout.getD 3) := by
  refine ⟨?_, ?_, ?_, ?_, ?_, ?_, ?_, ?_, ?_, ?_, ?_, ?_, ?_⟩ <;>
    simp [mergeArgs, mergeScalar_eq_getD, mergeScalarOpt_eq_or,
      mergeStdio_eq, lookupStdout_eq, lookupStderr_eq]

/-- C1: after the child exits, `run()` raises the run error carrying the
result exactly when the effective `enforce` holds and the exit code
differs from the effective `enforce_code`, and returns the result
otherwise; in particular `run('false')` inside a `Quash()` scope returns a
result with code 1. -/
theorem run_enforce_spec :
    (∀ (a : Argv) (user : UserArgs) (ctx : RunCtx) (proc : Proc),
      (mergeArgs user ctx).mode ∈ modesList →
      ((mergeArgs user ctx).enforce = true ∧
          proc.code ≠ (mergeArgs user ctx).enforceCode →
        runModel a user ctx proc = .error (.enforce (mkResult a proc))) ∧
      ((mergeArgs user ctx).enforce = false ∨
          proc.code = (mergeArgs user ctx).enforceCode →
        runModel a user ctx proc = .ok (mkResult a proc))) ∧
    runModel (.str "false") {} (quashEnter {}) ⟨1, "", ""⟩ =
      .ok ⟨"false", ["false"], 1, "", ""⟩ := by
  constructor
  · intro a user ctx proc hmode
    constructor
    · intro h
      unfold runModel
      rw [if_pos hmode, if_pos h]
    · intro h
      have hneg : ¬ ((mergeArgs user ctx).enforce = true ∧
          proc.code ≠ (mergeArgs user ctx).enforceCode) := by
        rcases h with h | h
        · simp [h]
        · simp [h]
      unfold runModel
      rw [if_pos hmode, if_neg hneg]
  · rfl

/-- Witness for `run_enforce_spec`: under the static defaults, a process
exiting 1 raises the enforcement error carrying the result. -/
theorem run_enforce_spec_witness :
    runModel (.list ["false"]) {} {} ⟨1, "", ""⟩ =
      .error (.enforce (mkResult (.list ["false"]) ⟨1, "", ""⟩)) :=
  (run_enforce_spec.1 (.list ["false"]) {} {} ⟨1, "", ""⟩ (by decide)).1
    ⟨rfl, by decide⟩

end Lura.Run

namespace Lura.Sudo

/-- C6: the sudo and askpass argument vectors are built without reading
the password — two invocations differing only in the password produce
identical argvs — and they contain only the sudo flags, the shell and the
`touch <ok> && exec <user-argv>` command string, respectively the
interpreter, the `askpass` subcommand, the FIFO path and the timeout. -/
theorem sudo_argv_password_noninterference (shell pyExe : String) (t : Tls)
    (p₁ p₂ : String) :
    sudoArgv shell { t with password := p₁ } =
      sudoArgv shell { t with password := p₂ } ∧
    askpassArgv pyExe { t with password := p₁ } =
      askpassArgv pyExe { t with password := p₂ } ∧
    sudoArgv shell t =
      ["sudo", "-A"] ++
        (match t.user with | some u => ["-u", u] | none => []) ++
        (match t.group with | some g => ["-g", g] | none => []) ++
        (if t.login then ["-i"] else []) ++
        [shell, "-c",
          Lura.Shell.shjoin ["touch", t.okPath] ++ " " ++ "&& exec" ++ " " ++
            Lura.Shell.shjoin t.argv] ∧
    askpassArgv pyExe t =
      Lura.Shell.shjoin [pyExe, "-m", "lura.sudo", "askpass", t.fifoPath,
        floatStr t.timeout] := by
  exact ⟨rfl, rfl, rfl, rfl⟩

/-- When the ok sentinel never exists, the await loop always raises. -/
theorem awaitOk_no_ok (env : SudoEnv) (timeout : Nat)
    (h : ∀ u, env.okAt u = false) :
    ∀ t, awaitOk env timeout t = .error .timeoutExpired := by
  have H : ∀ n t, timeout + 1 - t ≤ n →
      awaitOk env timeout t = .error .timeoutExpired := by
    intro n
    induction n with
    | zero =>
        intro t ht
        unfold awaitOk
        have hlt : timeout < t := by omega
        simp [h t, hlt]
    | succ n ih =>
        intro t ht
        unfold awaitOk
        by_cases hlt : timeout < t
        · simp [h t, hlt]
        · simp [h t, hlt]
          exact ih (t + 1) (by omega)
  intro t
  exact H (timeout + 1 - t) t le_rfl

/-- C5: when the ok sentinel never appears on disk, `_wait_for_sudo`
raises `TimeoutExpired` — in particular a completed FIFO write is never
treated as success, since every exit path other than the timeout checks
the sentinel. -/
theorem wait_for_sudo_times_out_without_ok (env : SudoEnv) (timeout : Nat)
    (h : ∀ u, env.okAt u = false) :
    waitForSudo env timeout 0 = .error .timeoutExpired := by
  have H : ∀ n t, timeout + 1 - t ≤ n →
      waitForSudo env timeout t = .error .timeoutExpired := by
    intro n
    induction n with
    | zero =>
        intro t ht
        unfold waitForSudo
        by_cases hf : env.fifoOpenAt t
        · simp only [hf, if_true]
          cases hw : writeFifo env ((timeout : Int) - (t : Int)) t 0 t with
          | ok tEnd => simp [hw, awaitOk_no_ok env timeout h tEnd]
          | error e => cases e; simp [hw]
        · have hlt : timeout < t := by omega
          simp [hf, h t, hlt]
    | succ n ih =>
        intro t ht
        unfold waitForSudo
        by_cases hf : env.fifoOpenAt t
        · simp only [hf, if_true]
          cases hw : writeFifo env ((timeout : Int) - (t : Int)) t 0 t with
          | ok tEnd => simp [hw, awaitOk_no_ok env timeout h tEnd]
          | error e => cases e; simp [hw]
        · by_cases hlt : timeout < t
          · simp [hf, h t, hlt]
          · simp [hf, h t, hlt]
            exact ih (t + 1) (by omega)
  exact H (timeout + 1) 0 (by omega)

/-- Witness for `wait_for_sudo_times_out_without_ok`: a concrete run in
which the FIFO write completes on the second tick and the sentinel never
appears still times out. -/
theorem wait_for_sudo_times_out_witness :
    (∀ u, demoEnv.okAt u = false) ∧
    waitForSudo demoEnv 3 0 = .error .timeoutExpired :=
  ⟨fun _ => rfl, wait_for_sudo_times_out_without_ok demoEnv 3 (fun _ => rfl)⟩

end Lura.Sudo

namespace Lura.Deploy

/-- C3 counterexample: two deployments whose workers succeed on host `h1`
with different change totals (5 and 7) produce identical executor results,
and `_format_result` classifies them into a bare host list `["h1"]` and an
error-pair list — so the returned `ok` cannot contain the worker's value,
contradicting the claimed `(host, value)` pairs. -/
theorem format_result_drops_value :
    executorApply workerA ["h1", "h2"] = executorApply workerB ["h1", "h2"] ∧
    workerA "h1" = .ok 5 ∧
    workerB "h1" = .ok 7 ∧
    formatResultOk ["h1", "h2"] (executorApply workerA ["h1", "h2"]) =
      ["h1"] ∧
    formatResultErr ["h1", "h2"] (executorApply workerA ["h1", "h2"]) =
      [("h2", "boom")] := by
  exact ⟨rfl, rfl, rfl, rfl, rfl⟩

/-- The ok bucket lists exactly the hosts whose worker succeeded. -/
theorem formatOk_apply {α ε : Type} (worker : α → Except ε Nat) :
    ∀ hosts : List α,
      formatResultOk hosts (executorApply worker hosts) =
        hosts.filter (fun h => isOkOutcome (worker h)) := by
  intro hosts
  induction hosts with
  | nil => rfl
  | cons h hs ih =>
      simp only [formatResultOk, executorApply, List.map_cons, List.zip_cons_cons,
        List.filterMap_cons, List.filter_cons] at ih ⊢
      cases hw : worker h with
      | ok v => simp [hw, isOkOutcome, ih]
      | error e => simp [hw, isOkOutcome, ih]

/-- The err bucket pairs exactly the hosts whose worker raised with the
raised exception. -/
theorem formatErr_apply {α ε : Type} (worker : α → Except ε Nat) :
    ∀ hosts : List α,
      formatResultErr hosts (executorApply worker hosts) =
        hosts.filterMap (fun h =>
          match worker h with
          | .ok _ => none
          | .error e => some (h, e)) := by
  intro hosts
  induction hosts with
  | nil => rfl
  | cons h hs ih =>
      simp only [formatResultErr, executorApply, List.map_cons, List.zip_cons_cons,
        List.filterMap_cons] at ih ⊢
      cases hw : worker h with
      | ok v => simp [hw, ih]
      | error e => simp [hw, ih]

/-- C3 amended: for an apply over `hosts`, `_format_result` of the
executor results yields an `ok` list holding the bare hosts whose worker
completed without an exception (the worker's value itself is discarded),
an `err` list of `(host, exception)` pairs for the hosts whose worker
raised, and every host appears in exactly one of the two lists. -/
theorem format_result_partition {α ε : Type} (worker : α → Except ε Nat)
    (hosts : List α) :
    formatResultOk hosts (executorApply worker hosts) =
      hosts.filter (fun h => isOkOutcome (worker h)) ∧
    formatResultErr hosts (executorApply worker hosts) =
      hosts.filterMap (fun h =>
        match worker h with
        | .ok _ => none
        | .error e => some (h, e)) ∧
    (formatResultOk hosts (executorApply worker hosts) ++
      (formatResultErr hosts (executorApply worker hosts)).map Prod.fst).Perm
      hosts := by
  refine ⟨formatOk_apply worker hosts, formatErr_apply worker hosts, ?_⟩
  rw [formatOk_apply worker hosts, formatErr_apply worker hosts]
  induction hosts with
  | nil => simp
  | cons h hs ih =>
      cases hw : worker h with
      | ok v =>
          simp only [List.filter_cons, List.filterMap_cons, hw, isOkOutcome,
            if_pos, List.cons_append]
          exact List.Perm.cons h ih
      | error e =>
          simp only [List.filter_cons, List.filterMap_cons, hw, isOkOutcome,
            List.map_cons]
          exact List.Perm.trans List.perm_middle (List.Perm.cons h ih)

end Lura.Deploy

namespace Lura.Config

/-- C4 counterexample: the `configuration.py` variant of
`Configuration.on_apply`, applied to a declaration with one language
package, does not run the steps in the claimed order — the
install-language-packages step is absent from its schedule. -/
theorem on_apply_variant_omits_python :
    onApplyStepsVariant demoDecl (fun _ => false) ≠
      claimedOrder demoDecl (fun _ => false) := by
  decide

/-- C4 amended: the `config.py` variant of `Configuration.on_apply` runs
the declared steps in exactly the claimed order (refresh only when
packages are declared and not all installed, then URLs, OS packages,
language packages, directories, files, assets, template files, template
assets, symlinks), while the `configuration.py` variant runs the same
schedule with the install-language-packages step removed. -/
theorem on_apply_order (c : Decl) (installed : String → Bool) :
    onApplySteps c installed = claimedOrder c installed ∧
    onApplyStepsVariant c installed =
      (claimedOrder c installed).filter
        (fun s => s ≠ .installPythonPackages) := by
  have hupd : applyOsPackageListUpdate c installed =
      (if allOsPackages c ≠ [] ∧ ¬ ((allOsPackages c).all installed = true)
       then [.refreshPackageList] else []) := by
    unfold applyOsPackageListUpdate
    by_cases h1 : allOsPackages c = []
    · simp [h1]
    · by_cases h2 : (allOsPackages c).all installed
      · simp [h1, h2]
      · simp [h1, h2]
  constructor
  · unfold onApplySteps claimedOrder
    rw [hupd]
    by_cases h : allOsPackages c ≠ [] ∧ ¬ ((allOsPackages c).all installed = true)
    · rw [if_pos h]
      decide
    · rw [if_neg h]
      decide
  · unfold onApplyStepsVariant claimedOrder
    rw [hupd]
    by_cases h : allOsPackages c ≠ [] ∧ ¬ ((allOsPackages c).all installed = true)
    · rw [if_pos h]
      decide
    · rw [if_neg h]
      decide

end Lura.Config

namespace Lura.Coord

/-- C8: `Coordinator.cancel` sets the cancelled flag and wakes every
waiter parked on the `ready`, `sync` and `done` barriers; any
`Configuration` barrier wait that starts after the flag is set raises
`Cancel` immediately, and any in-flight wait whose recheck sees the flag
raises `Cancel` rather than returning normally. -/
theorem coordinator_cancel_observed (s entry atWake : CoordState)
    (waitOk : Bool) :
    (cancel s).1.cancelled = true ∧
    (cancel s).1.readyWaiters = [] ∧
    (cancel s).1.syncWaiters = [] ∧
    (cancel s).1.doneWaiters = [] ∧
    (cancel s).2 = s.readyWaiters ++ s.syncWaiters ++ s.doneWaiters ∧
    (entry.cancelled = true →
      configWait entry atWake waitOk = .cancelRaised) ∧
    (atWake.cancelled = true →
      configWait entry atWake waitOk ≠ .normal) ∧
    (atWake.cancelled = true → waitOk = true →
      configWait entry atWake waitOk = .cancelRaised) := by
  refine ⟨rfl, rfl, rfl, rfl, rfl, ?_, ?_, ?_⟩
  · intro h
    simp [configWait, h]
  · intro h
    unfold configWait
    by_cases he : entry.cancelled = true
    · simp [he]
    · cases waitOk <;> simp [he, h]
  · intro h hw
    by_cases he : entry.cancelled = true <;> simp [configWait, he, h, hw]

/-- Witness for `coordinator_cancel_observed`: a wait entered after a
cancellation raises `Cancel`. -/
theorem coordinator_cancel_observed_witness :
    configWait ⟨true, [], [], []⟩ ⟨true, [], [], []⟩ true = .cancelRaised :=
  ((coordinator_cancel_observed ⟨false, [0], [1], [2]⟩ ⟨true, [], [], []⟩
    ⟨true, [], [], []⟩ true).2.2.2.2.2.1) rfl

end Lura.Coord

namespace Lura.Io

/-- C9: the `lura/io.py` tee loop never takes its EOF break — on a source
at EOF it keeps looping for any number of iterations, because its break
condition compares an `int` with a `str` — while the `lura/run.py` pump
writes every unit read from the source to every target and terminates at
EOF, or earlier when the stop signal is observed at a read boundary. -/
theorem tee_eof_loop_never_breaks :
    (∀ (bufs : List (List String)) (fuel : Nat),
        (ioTee [] bufs fuel).isFinished = false) ∧
    (∀ (items : List String) (bufs : List (List String)),
        teePump none items bufs = bufs.map (fun b => b ++ items)) ∧
    (∀ (k : Nat) (items : List String) (bufs : List (List String)),
        teePump (some k) items bufs = bufs.map (fun b => b ++ items.take k)) := by
  refine ⟨?_, ?_, ?_⟩
  · intro bufs fuel
    induction fuel generalizing bufs with
    | zero => rfl
    | succ n ih => exact ih (writeAll "" bufs)
  · intro items
    induction items with
    | nil =>
        intro bufs
        simp [teePump]
    | cons x rest ih =>
        intro bufs
        rw [show teePump none (x :: rest) bufs =
            teePump none rest (bufs.map (fun b => b ++ [x])) from rfl]
        rw [ih]
        simp [List.map_map, Function.comp_def]
  · intro k items
    induction items generalizing k with
    | nil =>
        intro bufs
        cases k <;> simp [teePump]
    | cons x rest ih =>
        intro bufs
        cases k with
        | zero => simp [teePump]
        | succ j =>
            rw [show teePump (some (j + 1)) (x :: rest) bufs =
                teePump (some j) rest (bufs.map (fun b => b ++ [x])) from rfl]
            rw [ih]
            simp [List.map_map, Function.comp_def]

end Lura.Io

namespace Lura.Scrub

/-- Every pass-named string or bytes entry reachable through mapping
values holds the default tag after scrubbing. -/
theorem noLeak_scrubMap_default : (m : PyMap) → NoLeakMap (scrubMap scrubTag m)
  | .nil => trivial
  | .cons name value rest => by
      cases value with
      | str s =>
          by_cases hp : containsPass name
          · simp only [scrubMap, hp, if_true, NoLeakMap]
            exact ⟨fun _ => trivial, noLeak_scrubMap_default rest⟩
          · simp only [scrubMap, hp, if_false, NoLeakMap, Bool.false_eq_true]
            exact ⟨fun hc => hc.elim, noLeak_scrubMap_default rest⟩
      | bytes s =>
          by_cases hp : containsPass name
          · simp only [scrubMap, hp, if_true, NoLeakMap]
            exact ⟨fun _ => trivial, noLeak_scrubMap_default rest⟩
          · simp only [scrubMap, hp, if_false, NoLeakMap, Bool.false_eq_true]
            exact ⟨fun hc => hc.elim, noLeak_scrubMap_default rest⟩
      | map m2 =>
          simp only [scrubMap, NoLeakMap]
          exact ⟨noLeak_scrubMap_default m2, noLeak_scrubMap_default rest⟩
      | seq xs =>
          simp only [scrubMap, NoLeakMap]
          exact ⟨trivial, noLeak_scrubMap_default rest⟩
      | other n =>
          simp only [scrubMap, NoLeakMap]
          exact ⟨trivial, noLeak_scrubMap_default rest⟩

/-- Scrubbing preserves every sequence value, at the top level and inside
every nested mapping, for any tag. -/
theorem seqAgree_scrubMap : (tag : String) → (m : PyMap) →
    SeqAgree m (scrubMap tag m)
  | _, .nil => trivial
  | tag, .cons name value rest => by
      cases value with
      | str s =>
          by_cases hp : containsPass name
          · simp only [scrubMap, hp, if_true, SeqAgree]
            exact ⟨trivial, trivial, seqAgree_scrubMap tag rest⟩
          · simp only [scrubMap, hp, if_false, SeqAgree, Bool.false_eq_true]
            exact ⟨trivial, trivial, seqAgree_scrubMap tag rest⟩
      | bytes s =>
          by_cases hp : containsPass name
          · simp only [scrubMap, hp, if_true, SeqAgree]
            exact ⟨trivial, trivial, seqAgree_scrubMap tag rest⟩
          · simp only [scrubMap, hp, if_false, SeqAgree, Bool.false_eq_true]
            exact ⟨trivial, trivial, seqAgree_scrubMap tag rest⟩
      | map m2 =>
          simp only [scrubMap, SeqAgree]
          exact ⟨trivial, seqAgree_scrubMap scrubTag m2, seqAgree_scrubMap tag rest⟩
      | seq xs =>
          simp only [scrubMap, SeqAgree]
          exact ⟨trivial, trivial, seqAgree_scrubMap tag rest⟩
      | other n =>
          simp only [scrubMap, SeqAgree]
          exact ⟨trivial, trivial, seqAgree_scrubMap tag rest⟩

/-- C10: `scrub` returns the scrubbed mapping itself, and afterwards every
key whose lowercased name contains `pass` and whose value is a string or
bytes — at the top level or inside any mapping reached through mapping
values — holds the scrub tag, while sequence values (and everything inside
them) are left unchanged. -/
theorem scrub_spec (m : PyMap) :
    scrub m = scrubMap scrubTag m ∧
    NoLeakMap (scrub m) ∧
    SeqAgree m (scrub m) :=
  ⟨rfl, noLeak_scrubMap_default m, seqAgree_scrubMap scrubTag m⟩

end Lura.Scrub

namespace Lura.Hosts

/-- C7: evaluation of the transfer protocol.  A local round trip returns
the source bytes, and an ssh round trip whose source and destination share
a basename also does; but `Ssh.put` with differing basenames fails — the
ssh library deposits the file under the SOURCE basename while the `cp -f`
reads the path named after the DESTINATION basename, so the enforced copy
raises instead of completing the round trip. -/
theorem ssh_put_get_round_trip_eval :
    roundTripLocal [("/home/u/a.txt", "DATA")] "/home/u/a.txt" "/etc/b.txt"
      "/home/u/c.txt" = some (some "DATA") ∧
    roundTripSsh demoState "/tmp/t1" "/tmp/t2" "/home/u/a.txt" "/etc/a.txt"
      "/home/u/c.txt" = some (some "DATA") ∧
    sshPut demoState "/tmp/t1" "/home/u/a.txt" "/etc/b.txt" =
      .error (.copyFailed "/tmp/t1/b.txt" "/etc/b.txt") :=
  ⟨rfl, rfl, rfl⟩

end Lura.Hosts
